import Mathlib

/-!
# Verification of the chat-analyst event-ingestion and persistence pipeline

Shallow embedding, in Lean 4, of the components of the `chat-analyst`
repository that the specification's claims are about:

* `src/utils/flagsParser.ts` — the message-flag bitmask codec;
* `src/services/MessageParser.ts` — the wire-event parser;
* `src/storage/ChatFileManager.ts` — message append/replace, in-memory chat cache;
* `src/services/ErrorHandler.ts` — error classification, retry decision, retry buffer;
* `src/services/LongPollCollector.ts` — connection/reconnection state machine;
* `src/services/UserManager.ts` — single-user resolution with placeholder fallback.

JavaScript values that can be one of several runtime types (the positional
long-poll event entries, attachment side-channel fields) are embedded as the
inductive `JVal`; JS truthiness is modelled by `jTruthy`.  JS `Map` objects
are embedded as association lists in insertion order (`Map.set` on a fresh key
appends, on an existing key updates in place; iteration follows insertion
order).  `Array.prototype.sort`, which ES2019 requires to be stable, is
modelled by `List.insertionSort`, a stable sort.  JS numbers that the code
only treats as integers are embedded as `Int` (or `Nat` where they are counts).
-/

namespace ChatAnalyst

/-! ## Wire values and JS truthiness -/

/-- A JavaScript runtime value as it occurs in long-poll events: a number, a
string, or a plain object (modelled as an association list of fields in
insertion order). -/
inductive JVal where
  | num (n : Int)
  | str (s : String)
  | obj (fields : List (String × JVal))

/-- JS truthiness of an (optional) value: `undefined`, `0` and `""` are falsy,
objects are truthy. -/
def jTruthy : Option JVal → Bool
  | none => false
  | some (.num n) => n != 0
  | some (.str s) => s ≠ ""
  | some (.obj _) => true

/-- Field lookup on a JS object (`undefined` when absent). -/
def jGet (fields : List (String × JVal)) (key : String) : Option JVal :=
  (fields.find? (fun f => f.fst == key)).map (·.snd)

/-- String interpolation `${v}` of a JS value inside a template literal. -/
def jTemplate : JVal → String
  | .num n => toString n
  | .str s => s
  | .obj _ => "[object Object]"

/-! ## `src/utils/flagsParser.ts` -/

/-- `TMessageFlags`: the ten booleans decoded from the wire bitmask
(source names; `delUser`/`fixed`/`media` are the spec's
`deletedByUser`/`verifiedNotSpam`/`hasMedia`). -/
structure TMessageFlags where
  unread : Bool
  outbox : Bool
  replied : Bool
  important : Bool
  chat : Bool
  friends : Bool
  spam : Bool
  delUser : Bool
  fixed : Bool
  media : Bool
  deriving DecidableEq, Repr

/-- `parseMessageFlags` (flagsParser.ts:27-40): each flag is
`Boolean(flagsValue & MESSAGE_FLAGS.X)`.  The argument is the flags value
after JS `ToInt32` reduction, represented as a natural number mod 2^32
(`&` with the positive flag constants only inspects those low bits). -/
def parseMessageFlags (flagsValue : Nat) : TMessageFlags where
  unread := flagsValue &&& 1 != 0
  outbox := flagsValue &&& 2 != 0
  replied := flagsValue &&& 4 != 0
  important := flagsValue &&& 8 != 0
  chat := flagsValue &&& 16 != 0
  friends := flagsValue &&& 32 != 0
  spam := flagsValue &&& 64 != 0
  delUser := flagsValue &&& 128 != 0
  fixed := flagsValue &&& 256 != 0
  media := flagsValue &&& 512 != 0

/-- `encodeMessageFlags` (flagsParser.ts:48-63): `flagsValue |= MESSAGE_FLAGS.X`
for each set flag. -/
def encodeMessageFlags (flags : TMessageFlags) : Nat :=
  let v := 0
  let v := if flags.unread then v ||| 1 else v
  let v := if flags.outbox then v ||| 2 else v
  let v := if flags.replied then v ||| 4 else v
  let v := if flags.important then v ||| 8 else v
  let v := if flags.chat then v ||| 16 else v
  let v := if flags.friends then v ||| 32 else v
  let v := if flags.spam then v ||| 64 else v
  let v := if flags.delUser then v ||| 128 else v
  let v := if flags.fixed then v ||| 256 else v
  let v := if flags.media then v ||| 512 else v
  v

/-! ## `src/services/MessageParser.ts` -/

/-- `TAttachment` as built by `MessageParser.parseAttachments`: the `type` and
`id` fields are always present; `url`, `title` and the `metadata` record
depend on the attachment kind. -/
structure TAttachment where
  type : String
  id : JVal
  url : Option JVal
  title : Option JVal
  metadata : List (String × Option JVal)

/-- `TParsedMessage` as returned by `MessageParser.parseMessageEvent`.
`fromId` is `none` when the JS computation produces `NaN`
(`parseInt` on a non-numeric `from` field); numeric author ids are `some`. -/
structure TParsedMessage where
  messageId : Int
  peerId : Int
  fromId : Option Int
  timestamp : Int
  text : String
  attachments : List TAttachment
  flags : TMessageFlags
  conversationMessageId : Option JVal

/-- JS `parseInt(s, 10)`: optional sign, then leading decimal digits;
`none` models `NaN` (no digits). -/
def parseIntJS (s : String) : Option Int :=
  let chars := s.toList
  let (neg, rest) :=
    match chars with
    | '-' :: cs => (true, cs)
    | '+' :: cs => (false, cs)
    | cs => (false, cs)
  let digits := rest.takeWhile Char.isDigit
  if digits.isEmpty then none
  else
    let n := digits.foldl (fun acc c => acc * 10 + (c.toNat - '0'.toNat)) 0
    some (if neg then -(n : Int) else (n : Int))

/-- `MessageParser.isValidAttachmentType` (MessageParser.ts:167-170). -/
def isValidAttachmentType (type : String) : Bool :=
  ["photo", "audio", "video", "doc", "sticker", "link", "geo"].contains type

/-- `MessageParser.extractPhotoUrl` (MessageParser.ts:177-181). -/
def extractPhotoUrl (photoId : String) : String :=
  "https://vk.com/photo" ++ photoId

/-- One iteration body of the `parseAttachments` loop for index `i`
(MessageParser.ts:110-151): pushes an attachment when the type is valid and
the id is truthy, otherwise skips. -/
def parseAttachmentAt (data : List (String × JVal)) (i : Nat) : List TAttachment :=
  let key := "attach" ++ toString i
  let tv := jGet data (key ++ "_type")
  let idv := jGet data key
  match tv with
  | some (.str type) =>
    if isValidAttachmentType type && jTruthy idv then
      match idv with
      | some id =>
        if type = "photo" then
          [⟨type, id, some (.str (extractPhotoUrl (jTemplate id))), none, []⟩]
        else if type = "link" then
          [⟨type, id, jGet data (key ++ "_url"), jGet data (key ++ "_title"),
            [("description", jGet data (key ++ "_desc")),
             ("photo", jGet data (key ++ "_photo"))]⟩]
        else if type = "sticker" then
          [⟨type, id, none, none, [("product_id", jGet data (key ++ "_product_id"))]⟩]
        else if type = "geo" then
          [⟨type, id, none, none, [("provider_id", jGet data "geo_provider")]⟩]
        else
          [⟨type, id, none, none, [("raw_data", idv)]⟩]
      | none => []
    else []
  | _ => []

/-- The `while` loop of `parseAttachments` (MessageParser.ts:109-159):
iterates while `attach{i}_type` is truthy, starting at `i = 1`, breaking once
the index exceeds the safety cap of 10.  `fuel` counts the remaining allowed
iterations (10 at the start), so the recursion is structural. -/
def parseAttachmentsGo (data : List (String × JVal)) : Nat → Nat → List TAttachment
  | 0, _ => []
  | fuel + 1, i =>
    if jTruthy (jGet data ("attach" ++ toString i ++ "_type")) then
      parseAttachmentAt data i ++
        (if i + 1 > 10 then [] else parseAttachmentsGo data fuel (i + 1))
    else []

/-- `MessageParser.parseAttachments` (MessageParser.ts:101-162). -/
def parseAttachments (data : List (String × JVal)) : List TAttachment :=
  parseAttachmentsGo data 10 1

/-- Extra-data slot as a JS object: `extraData[k] && typeof extraData[k] === 'object'`
selects the fields, else `{}` (MessageParser.ts:65-66). -/
def objOrEmpty (v : Option JVal) : List (String × JVal) :=
  match v with
  | some (.obj fields) => fields
  | _ => []

/-- `MessageParser.parseMessageEvent` (MessageParser.ts:30-94), translated
clause by clause.  Thrown `Error`s become `Except.error`. -/
def parseMessageEvent (event : List JVal) : Except String TParsedMessage := do
  if event.length < 6 then
    throw "Invalid Long Poll event format: expected array with at least 6 elements"
  let eventType := event[0]?
  let messageIdV := event[1]?
  let flagsV := event[2]?
  let peerIdV := event[3]?
  let timestampV := event[4]?
  let textV := event[5]?
  let extraData := event.drop 6
  -- eventType !== LONG_POLL_EVENT_TYPES.NEW_MESSAGE (strict equality with 4)
  match eventType with
  | some (JVal.num 4) => pure ()
  | _ => throw "Unsupported event type for message parsing"
  let messageId ← match messageIdV with
    | some (JVal.num n) => if n ≤ 0 then throw "Invalid message ID" else pure n
    | _ => throw "Invalid message ID"
  let flags ← match flagsV with
    | some (JVal.num n) => pure n
    | _ => throw "Invalid flags"
  let peerId ← match peerIdV with
    | some (JVal.num n) => pure n
    | _ => throw "Invalid peer ID"
  let timestamp ← match timestampV with
    | some (JVal.num n) => if n ≤ 0 then throw "Invalid timestamp" else pure n
    | _ => throw "Invalid timestamp"
  let text ← match textV with
    | some (JVal.str s) => pure s
    | _ => throw "Invalid message text"
  -- messageFlags = parseMessageFlags(flags); JS `&` works on ToInt32(flags),
  -- whose bit pattern is flags mod 2^32
  let messageFlags := parseMessageFlags ((flags % (2 ^ 32 : Int)).toNat)
  let extraInfo := objOrEmpty (if jTruthy (extraData[0]?) then extraData[0]? else none)
  let attachmentData := objOrEmpty (if jTruthy (extraData[1]?) then extraData[1]? else none)
  -- author extraction (MessageParser.ts:69-80)
  let fromId : Option Int :=
    match jGet extraInfo "from" with
    | some (.str s) =>
      if s ≠ "" then parseIntJS s
      else if messageFlags.outbox then some 0
      else if peerId < 2000000000 then some peerId else some 0
    | _ =>
      if messageFlags.outbox then some 0
      else if peerId < 2000000000 then some peerId else some 0
  let attachments := parseAttachments attachmentData
  pure {
    messageId := messageId
    peerId := peerId
    fromId := fromId
    timestamp := timestamp
    text := text
    attachments := attachments
    flags := messageFlags
    conversationMessageId := jGet extraInfo "conversation_message_id"
  }

/-- The raw event of the specification's Scenario A:
`[4, 123456, 49, 2000000001, 1755105000, "hello", {from:"123"}, {}]`. -/
def scenarioAEvent : List JVal :=
  [.num 4, .num 123456, .num 49, .num 2000000001, .num 1755105000, .str "hello",
   .obj [("from", .str "123")], .obj []]

/-! ## `src/storage/ChatFileManager.ts` — message list update

`saveMessage` (ChatFileManager.ts:96-147) converts the parsed message to a
`TMessage` whose `date` is `new Date(timestamp * 1000).toISOString()`; the
sort comparator reads it back with `new Date(date).getTime()`, i.e. compares
`timestamp * 1000`.  We embed `date` directly as that millisecond value. -/

/-- A stored chat message (`TMessage`): `id`, the author's user id, the
millisecond `date`, and the text `content`. -/
structure TMessage where
  id : Int
  author : Int
  date : Int
  content : String
  deriving DecidableEq, Repr

/-- The message-list update of `ChatFileManager.saveMessage`
(ChatFileManager.ts:118-128): `findIndex` on the id; if absent, push and
re-sort by date (`Array.prototype.sort` is stable — modelled by the stable
`List.insertionSort`); if present, replace in place at that index. -/
def insertMessage (msgs : List TMessage) (m : TMessage) : List TMessage :=
  match msgs.findIdx? (fun msg => msg.id == m.id) with
  | none => (msgs ++ [m]).insertionSort (fun a b => a.date ≤ b.date)
  | some i => msgs.set i m

instance : IsTotal TMessage (fun a b => a.date ≤ b.date) :=
  ⟨fun a b => Int.le_total a.date b.date⟩

instance : IsTrans TMessage (fun a b => a.date ≤ b.date) :=
  ⟨fun _ _ _ hab hbc => le_trans hab hbc⟩

/-- The chat's message list is sorted ascending by timestamp. -/
def sortedByDate (msgs : List TMessage) : Prop :=
  msgs.Pairwise (fun a b => a.date ≤ b.date)

/-- No two messages of the chat share an id. -/
def uniqueIds (msgs : List TMessage) : Prop :=
  msgs.Pairwise (fun a b => a.id ≠ b.id)

/-! ## `src/storage/ChatFileManager.ts` — in-memory chat cache

The cache is a JS `Map<number, TChat>`, embedded as an association list in
insertion order.  The operations below are generic in the cached chat value
`χ`: the claims about the cache depend only on its shape. -/

/-- JS `Map.set`: replace in place when the key exists (keeping its
insertion position), append otherwise. -/
def mapSet {χ : Type} (cache : List (Int × χ)) (k : Int) (v : χ) : List (Int × χ) :=
  match cache.findIdx? (fun e => e.fst == k) with
  | some i => cache.set i (k, v)
  | none => cache ++ [(k, v)]

/-- JS `Map.get`, as used by `chatCache.get(chatId)`. -/
def mapGet {χ : Type} (cache : List (Int × χ)) (k : Int) : Option χ :=
  (cache.find? (fun e => e.fst == k)).map (·.snd)

/-- `ChatFileManager.evictOldestCacheEntry` (ChatFileManager.ts:514-521):
deletes the first key of the `Map`, i.e. the first-inserted entry. -/
def evictOldestCacheEntry {χ : Type} (cache : List (Int × χ)) : List (Int × χ) :=
  cache.tail

/-- `ChatFileManager.getChatData` (ChatFileManager.ts:154-179): cache hit
returns the cached chat; otherwise load from file (`files`), insert into the
cache and evict the oldest entry when the size limit is exceeded.  Returns
the new cache and the result. -/
def getChatDataStep {χ : Type} (maxMemoryCacheSize : Nat) (files : Int → Option χ)
    (cache : List (Int × χ)) (chatId : Int) : List (Int × χ) × Option χ :=
  match mapGet cache chatId with
  | some c => (cache, some c)
  | none =>
    match files chatId with
    | none => (cache, none)
    | some c =>
      let cache := mapSet cache chatId c
      let cache :=
        if cache.length > maxMemoryCacheSize then evictOldestCacheEntry cache
        else cache
      (cache, some c)

/-- `ChatFileManager.updateActiveUsers` (ChatFileManager.ts:186-223), cache
effects only: re-fetches the chat via `getChatData` and, when found, writes
the updated chat back with `chatCache.set`.  `touch` stands for the
active-users update applied to the chat value. -/
def updateActiveUsersStep {χ : Type} (maxMemoryCacheSize : Nat) (files : Int → Option χ)
    (touch : χ → χ) (cache : List (Int × χ)) (chatId : Int) : List (Int × χ) :=
  let (cache, copt) := getChatDataStep maxMemoryCacheSize files cache chatId
  match copt with
  | none => cache
  | some c => mapSet cache chatId (touch c)

/-- `ChatFileManager.saveMessage` (ChatFileManager.ts:96-147), cache effects
only: `getChatData`, create the chat when absent (`mkChat` stands for
`createNewChat`), update the message list, update the active users
(which goes through `getChatData` again), and finally `chatCache.set(chatId,
chat)` — with no cache-size check on this insertion. -/
def saveMessageCacheStep {χ : Type} (maxMemoryCacheSize : Nat) (files : Int → Option χ)
    (mkChat : χ) (upd : χ → χ) (touch : χ → χ)
    (cache : List (Int × χ)) (chatId : Int) : List (Int × χ) :=
  let (cache, copt) := getChatDataStep maxMemoryCacheSize files cache chatId
  let chat := upd (copt.getD mkChat)
  let cache := updateActiveUsersStep maxMemoryCacheSize files touch cache chatId
  mapSet cache chatId chat

/-! ## `src/services/ErrorHandler.ts` -/

/-- `ErrorType` (ErrorHandler.ts:8-16). -/
inductive ErrorType where
  | network | api | filesystem | validation | timeout | rateLimit | unknown
  deriving DecidableEq, Repr

/-- The part of `TErrorHandlerConfig` (ErrorHandler.ts:21-25) the claims
depend on. -/
structure TErrorHandlerConfig where
  maxRetries : Nat
  bufferSize : Nat
  enableBuffering : Bool

/-- A JS `Error` as inspected by `classifyError`: an optional `code`
property and a `message`. -/
structure JsError where
  code : Option String
  message : String

/-- `DEFAULT_ERROR_HANDLER_CONFIG.errorClassificationRules`
(ErrorHandler.ts:39-50), in `Map` insertion order. -/
def defaultClassificationRules : List (String × ErrorType) :=
  [("ENOTFOUND", .network), ("ECONNREFUSED", .network), ("ETIMEDOUT", .timeout),
   ("ECONNRESET", .network), ("fetch failed", .network),
   ("Invalid access token", .api), ("Too many requests", .rateLimit),
   ("ENOENT", .filesystem), ("EACCES", .filesystem), ("EMFILE", .filesystem)]

/-- JS `String.prototype.toLowerCase` on the ASCII strings involved. -/
def lowerStr (s : String) : String := ⟨s.toList.map Char.toLower⟩

/-- Does the second character sequence start with the first? -/
def seqStartsWith : List Char → List Char → Bool
  | [], _ => true
  | _ :: _, [] => false
  | p :: ps, c :: cs => p == c && seqStartsWith ps cs

/-- Does the second character sequence contain the first as a contiguous
subsequence? -/
def seqContains (pat : List Char) : List Char → Bool
  | [] => pat.isEmpty
  | c :: cs => seqStartsWith pat (c :: cs) || seqContains pat cs

/-- JS `String.prototype.includes`. -/
def strIncludes (s pat : String) : Bool := seqContains pat.toList s.toList

/-- `ErrorHandler.classifyError` (ErrorHandler.ts:448-478): a truthy error
code is looked up in the rules first; then the first rule whose pattern
occurs in the lowercased message wins; then the additional timeout /
rate-limit / validation message patterns; else `unknown`. -/
def classifyError (rules : List (String × ErrorType)) (e : JsError) : ErrorType :=
  let errorMessage := lowerStr e.message
  let codeHit : Option ErrorType :=
    match e.code with
    | some c => if c ≠ "" then rules.lookup c else none
    | none => none
  match codeHit with
  | some t => t
  | none =>
    match rules.find? (fun rule => strIncludes errorMessage (lowerStr rule.fst)) with
    | some rule => rule.snd
    | none =>
      if strIncludes errorMessage "timeout" || strIncludes errorMessage "timed out" then
        .timeout
      else if strIncludes errorMessage "rate limit" || strIncludes errorMessage "too many" then
        .rateLimit
      else if strIncludes errorMessage "invalid" || strIncludes errorMessage "validation" then
        .validation
      else .unknown

/-- `ErrorHandler.shouldRetry` (ErrorHandler.ts:480-493). -/
def shouldRetry (cfg : TErrorHandlerConfig) (errorType : ErrorType) (attempt : Nat) : Bool :=
  if errorType = .validation then false
  else if attempt ≥ cfg.maxRetries then false
  else [ErrorType.network, .api, .timeout, .filesystem, .rateLimit].contains errorType

/-- `ErrorHandler.shouldBuffer` (ErrorHandler.ts:495-498). -/
def shouldBuffer (errorType : ErrorType) : Bool :=
  [ErrorType.network, .filesystem, .timeout, .rateLimit].contains errorType

/-- The three control paths of `ErrorHandler.handleError`
(ErrorHandler.ts:115-144): enter the immediate retry loop; buffer the
operation and rethrow; or rethrow without retrying or buffering. -/
inductive HandleErrorAction where
  | retryLoop | bufferThenThrow | rethrow
  deriving DecidableEq, Repr

/-- Which path `handleError` takes (ErrorHandler.ts:115-144): immediate retry
when `shouldRetry(error, errorType, 0)`; else buffering when enabled and
`shouldBuffer(errorType)`; else a plain rethrow. -/
def handleErrorAction (cfg : TErrorHandlerConfig) (rules : List (String × ErrorType))
    (e : JsError) : HandleErrorAction :=
  let errorType := classifyError rules e
  if shouldRetry cfg errorType 0 then .retryLoop
  else if cfg.enableBuffering && shouldBuffer errorType then .bufferThenThrow
  else .rethrow

/-- `'high' | 'normal' | 'low'` operation priority. -/
inductive BufPriority where
  | high | normal | low
  deriving DecidableEq, Repr

/-- A `TBufferedOperation` (ErrorHandler.ts:56-64) minus the opaque closure:
the `Map` key (`id`, a fresh random string, embedded as a counter value), the
context label, the `timestamp` (epoch ms), the retry count and the priority. -/
structure BufEntry where
  id : Nat
  context : String
  timestamp : Nat
  retryCount : Nat
  priority : BufPriority
  deriving DecidableEq, Repr

/-- The buffer `Map` in insertion order plus the counter generating fresh
operation ids (the source uses a timestamp-and-random string; only freshness
matters). -/
structure BufState where
  entries : List BufEntry
  nextId : Nat

instance : IsTotal BufEntry (fun a b => a.timestamp ≤ b.timestamp) :=
  ⟨fun a b => Nat.le_total a.timestamp b.timestamp⟩

instance : IsTrans BufEntry (fun a b => a.timestamp ≤ b.timestamp) :=
  ⟨fun _ _ _ hab hbc => le_trans hab hbc⟩

/-- `lowPriorityOps` of `handleBufferOverflow` (ErrorHandler.ts:517-519): the
low-priority entries sorted by timestamp, oldest first (JS stable sort). -/
def lowPriorityByAge (entries : List BufEntry) : List BufEntry :=
  (entries.filter (fun op => op.priority == .low)).insertionSort
    (fun a b => a.timestamp ≤ b.timestamp)

/-- `toRemove` of `handleBufferOverflow` (ErrorHandler.ts:521):
`Math.max(1, Math.floor(bufferSize * 0.1))`, embedded as natural division by
10 (no claim depends on its exact value). -/
def overflowRemoveCount (cfg : TErrorHandlerConfig) : Nat :=
  max 1 (cfg.bufferSize / 10)

/-- `ErrorHandler.handleBufferOverflow` (ErrorHandler.ts:513-532): delete the
first `min(toRemove, #lowPriorityOps)` of the age-sorted low-priority
entries from the buffer (the delete loop removes them by operation id). -/
def handleBufferOverflow (cfg : TErrorHandlerConfig) (entries : List BufEntry) :
    List BufEntry :=
  let removedIds :=
    ((lowPriorityByAge entries).take (overflowRemoveCount cfg)).map (·.id)
  entries.filter (fun e => !(removedIds.contains e.id))

/-- `ErrorHandler.bufferOperation` (ErrorHandler.ts:201-236): no-op when
buffering is disabled; at capacity (`buffer.size >= bufferSize`) run the
overflow handler and return **without inserting**; otherwise append the new
operation under a fresh id. -/
def bufferOperation (cfg : TErrorHandlerConfig) (st : BufState)
    (context : String) (timestamp : Nat) (priority : BufPriority) : BufState :=
  if !cfg.enableBuffering then st
  else if st.entries.length ≥ cfg.bufferSize then
    { st with entries := handleBufferOverflow cfg st.entries }
  else
    { entries := st.entries ++ [⟨st.nextId, context, timestamp, 0, priority⟩],
      nextId := st.nextId + 1 }

/-- An enqueue request: the arguments of one `bufferOperation` call. -/
structure BufRequest where
  context : String
  timestamp : Nat
  priority : BufPriority

/-- A sequence of `bufferOperation` calls starting from the given state. -/
def runBufferOps (cfg : TErrorHandlerConfig) (st : BufState) (ops : List BufRequest) :
    BufState :=
  ops.foldl (fun st op => bufferOperation cfg st op.context op.timestamp op.priority) st

/-! ## `src/services/LongPollCollector.ts` -/

/-- The configuration knobs of `TLongPollCollectorConfig`
(LongPollCollector.ts:16-24) the claims depend on. -/
structure TLongPollCollectorConfig where
  maxReconnectAttempts : Nat
  enableMissedEventsRecovery : Bool

/-- `TConnectionState` as kept in `connectionState`: the `connected` flag,
the reconnect counter, and the last known position token `lastPts`
(`none` when never set; JS treats `0` as falsy, hence `Option Int`). -/
structure TConnectionState where
  connected : Bool
  reconnectAttempts : Nat
  lastPts : Option Int

/-- Truthiness of an optional numeric field (`undefined` and `0` falsy). -/
def numTruthy : Option Int → Bool
  | none => false
  | some n => n != 0

/-- The session-acquisition response of `messages.getLongPollServer`
(`server`/`key`/`ts` required, `pts` optional). -/
structure TServerResponse where
  server : Option String
  key : Option String
  ts : Option Int
  pts : Option Int

/-- The result of one `connectToServer` call (LongPollCollector.ts:272-322):
the updated connection state, whether it succeeded, and whether
`recoverMissedEvents` was invoked. -/
structure ConnectResult where
  state : TConnectionState
  ok : Bool
  recoveryTriggered : Bool

/-- Truthiness of an optional string field (`undefined` and `""` falsy). -/
def strTruthy : Option String → Bool
  | none => false
  | some s => s ≠ ""

/-- `LongPollCollector.connectToServer` (LongPollCollector.ts:272-322):
validate the response, set `connected := true` and — line 294 —
`connectionState.lastPts := serverResponse.pts`; then — line 305 — trigger
missed-event recovery when recovery is enabled, `connectionState.lastPts` is
truthy and `connectionState.lastPts !== serverResponse.pts`.  The comparison
reads `connectionState.lastPts` after the line-294 assignment. -/
def connectToServer (cfg : TLongPollCollectorConfig) (st : TConnectionState)
    (resp : TServerResponse) : ConnectResult :=
  if !(strTruthy resp.server) || !(strTruthy resp.key) || !(numTruthy resp.ts) then
    { state := { st with connected := false }, ok := false, recoveryTriggered := false }
  else
    let st := { st with connected := true, lastPts := resp.pts }
    let recovery :=
      cfg.enableMissedEventsRecovery && numTruthy st.lastPts && st.lastPts != resp.pts
    { state := st, ok := true, recoveryTriggered := recovery }

/-- The early-exit guard of `LongPollCollector.recoverMissedEvents`
(LongPollCollector.ts:566-577): history is fetched only when both position
tokens are truthy and `lastPts < currentPts`. -/
def recoverMissedEventsFetches (enableMissedEventsRecovery : Bool)
    (lastPts currentPts : Option Int) : Bool :=
  if !enableMissedEventsRecovery then false
  else
    match lastPts, currentPts with
    | some l, some c => numTruthy (some l) && numTruthy (some c) && decide (l < c)
    | _, _ => false

/-- The collector's run state driving reconnection: `isRunning`,
`connected`, `reconnectAttempts` (in `connectionState`), and whether a
reconnection is currently scheduled on `reconnectTimer`. -/
structure CollectorState where
  isRunning : Bool
  connected : Bool
  reconnectAttempts : Nat
  reconnectScheduled : Bool
  deriving DecidableEq, Repr

/-- `LongPollCollector.stop` (LongPollCollector.ts:147-182): clears
`isRunning`, `connected` and all timers (including `reconnectTimer`). -/
def stopCollector (st : CollectorState) : CollectorState :=
  { st with isRunning := false, connected := false, reconnectScheduled := false }

/-- `LongPollCollector.handleConnectionError` (LongPollCollector.ts:461-486),
reached on a poll failure: sets `connected := false`, increments
`reconnectAttempts`, and — when still running — schedules a reconnection if
`reconnectAttempts < maxReconnectAttempts`, else stops. -/
def handlePollFailure (maxReconnectAttempts : Nat) (st : CollectorState) :
    CollectorState :=
  let st := { st with connected := false,
                      reconnectAttempts := st.reconnectAttempts + 1 }
  if !st.isRunning then st
  else if st.reconnectAttempts < maxReconnectAttempts then
    { st with reconnectScheduled := true }
  else stopCollector st

/-- A scheduled `reconnect()` (LongPollCollector.ts:187-228) whose
`connectToServer` call fails: the timer is consumed, `connected := false`
(line 197), and in the `catch` branch — which does **not** increment
`reconnectAttempts` — another reconnection is scheduled if
`reconnectAttempts < maxReconnectAttempts && isRunning`, else the collector
stops (lines 218-224). -/
def scheduledReconnectFailure (maxReconnectAttempts : Nat) (st : CollectorState) :
    CollectorState :=
  let st := { st with reconnectScheduled := false, connected := false }
  if st.reconnectAttempts < maxReconnectAttempts && st.isRunning then
    { st with reconnectScheduled := true }
  else stopCollector st

/-- A collector that has just started successfully
(LongPollCollector.ts:117-142: `isRunning := true`,
`reconnectAttempts := 0`, connected after `connectToServer`). -/
def startedCollector : CollectorState :=
  { isRunning := true, connected := true, reconnectAttempts := 0,
    reconnectScheduled := false }

/-- Iterated consecutive failures of the scheduled reconnect. -/
def iterReconnectFailures (maxAttempts : Nat) : Nat → CollectorState → CollectorState
  | 0, st => st
  | n + 1, st => iterReconnectFailures maxAttempts n (scheduledReconnectFailure maxAttempts st)

/-! ## `src/services/UserManager.ts` -/

/-- `TUser`: id, display name, optional last-activity time (epoch ms). -/
structure TUser where
  id : Int
  name : String
  lastActivity : Option Int
  deriving DecidableEq, Repr

/-- `TCachedUser` = `TUser` + `cachedAt`/`ttl` (`cacheUser`,
UserManager.ts:206-210). -/
structure TCachedUser where
  id : Int
  name : String
  lastActivity : Option Int
  cachedAt : Nat
  ttl : Int
  deriving DecidableEq, Repr

/-- `validateUser` (models/validators.ts:6-19): the typing conjuncts hold by
construction in the embedding, leaving `name.length > 0`. -/
def validateUser (user : TUser) : Bool :=
  user.name.length > 0

/-- JS `String.prototype.trim`: strip leading and trailing whitespace. -/
def jsTrim (s : String) : String :=
  ⟨(((s.toList.dropWhile Char.isWhitespace).reverse.dropWhile Char.isWhitespace).reverse)⟩

/-- The part of `TUserManagerConfig` (UserManager.ts:9-12) that matters here:
the TTL copied into cache entries. -/
structure TUserManagerConfig where
  cacheTimeToLive : Int

/-- A user profile as returned by the remote `users.get` call: any field may
be missing or of the wrong dynamic type (`id` is `none` when not a number). -/
structure VKUser where
  id : Option Int
  firstName : Option String
  lastName : Option String
  lastSeen : Option Int

/-- The remote lookup result: the call rejected, or resolved with a (possibly
empty) list of profiles. -/
inductive FetchResult where
  | errored
  | ok (users : List VKUser)

/-- `UserManager.mapVKUserToTUser` (UserManager.ts:298-323): build the display
name from first/last name with a `User {id}` fallback, convert `last_seen`
to milliseconds, and throw when the id is not a number. -/
def mapVKUserToTUser (vkUser : VKUser) : Except String TUser :=
  let firstName := vkUser.firstName.getD ""
  let lastName := vkUser.lastName.getD ""
  let name0 := jsTrim (firstName ++ " " ++ lastName)
  let name :=
    if name0 = "" then
      "User " ++ (match vkUser.id with | some n => toString n | none => "undefined")
    else name0
  let lastActivity := vkUser.lastSeen.map (· * 1000)
  match vkUser.id with
  | none => .error "Invalid user ID"
  | some userId => .ok { id := userId, name := name, lastActivity := lastActivity }

/-- The placeholder user built for failed lookups
(UserManager.ts:251-255). -/
def placeholderUser (userId : Int) : TUser :=
  { id := userId, name := "User " ++ toString userId, lastActivity := none }

/-- `UserManager.fetchSingleUser` (UserManager.ts:237-257): any rejection —
of the remote call itself, of the empty-response check, or of
`mapVKUserToTUser` — is caught and replaced by the placeholder user. -/
def fetchSingleUser (userId : Int) (r : FetchResult) : TUser :=
  match r with
  | .errored => placeholderUser userId
  | .ok [] => placeholderUser userId
  | .ok (vkUser :: _) =>
    match mapVKUserToTUser vkUser with
    | .ok user => user
    | .error _ => placeholderUser userId

/-- `UserManager.cacheUser` (UserManager.ts:200-215): skip invalid users,
otherwise store under the user's id with `cachedAt`/`ttl` stamped on.
`now` stands for `new Date()`. -/
def cacheUser (cfg : TUserManagerConfig) (cache : List (Int × TCachedUser))
    (now : Nat) (user : TUser) : List (Int × TCachedUser) :=
  if !validateUser user then cache
  else
    mapSet cache user.id
      { id := user.id, name := user.name, lastActivity := user.lastActivity,
        cachedAt := now, ttl := cfg.cacheTimeToLive }

/-- `UserManager.getUserInfo` (UserManager.ts:81-109): cache hit returns the
cached record (the cache never expires); on a miss the user is fetched
(`fetchSingleUser` never rejects), cached, and returned.  The in-flight
request coalescing (`pendingRequests`) only affects concurrent callers and is
not part of the sequential embedding. -/
def getUserInfo (cfg : TUserManagerConfig) (cache : List (Int × TCachedUser))
    (now : Nat) (userId : Int) (r : FetchResult) :
    TUser × List (Int × TCachedUser) :=
  match mapGet cache userId with
  | some cached =>
    ({ id := cached.id, name := cached.name, lastActivity := cached.lastActivity }, cache)
  | none =>
    let user := fetchSingleUser userId r
    (user, cacheUser cfg cache now user)

/-- `DEFAULT_USER_MANAGER_CONFIG` (UserManager.ts:17-20):
`cacheTimeToLive: 0` (unused — the cache never expires). -/
def defaultUserCfg : TUserManagerConfig := { cacheTimeToLive := 0 }

/-!
# Theorems

One theorem per claim of the specification review, preceded by the helper
lemmas they share.
-/

/-! ## C4 — flag round-trip -/

/-- **C4.** For every value of the ten-boolean `TMessageFlags` struct,
decoding the encoded bitmask gives back exactly the input:
`parseMessageFlags (encodeMessageFlags f) = f`. -/
theorem parseMessageFlags_encodeMessageFlags_roundtrip (f : TMessageFlags) :
    parseMessageFlags (encodeMessageFlags f) = f := by
  obtain ⟨u, o, r, i, c, fr, s, d, fx, m⟩ := f
  revert u o r i c fr s d fx m
  decide

/-! ## C1 — Scenario A -/

/-- **C1**, counterexample: the claim states that in the parse of Scenario A's
raw event every flag other than `unread` and `chat` is false, but the wire
bitmask is `49 = 1 + 16 + 32`, so the decoded `friends` flag is true. -/
theorem parseMessageEvent_scenarioA_friends_true :
    (parseMessageEvent scenarioAEvent).map (fun m => m.flags.friends) =
      Except.ok true := rfl

/-- **C1** (amended): parsing Scenario A's raw event succeeds and returns a
message with `messageId 123456`, `peerId 2000000001`, `fromId 123`,
`text "hello"`, and a flag set in which `unread`, `chat` **and `friends`**
are true and every other flag is false. -/
theorem parseMessageEvent_scenarioA :
    parseMessageEvent scenarioAEvent = Except.ok {
      messageId := 123456, peerId := 2000000001, fromId := some 123,
      timestamp := 1755105000, text := "hello", attachments := [],
      flags := { unread := true, outbox := false, replied := false,
                 important := false, chat := true, friends := true,
                 spam := false, delUser := false, fixed := false,
                 media := false },
      conversationMessageId := none } := rfl

/-! ## C2 — gap recovery on reconnect -/

/-- **C2** (code bug): `connectToServer` overwrites `connectionState.lastPts`
with the newly acquired `pts` *before* comparing the two
(LongPollCollector.ts:294 vs 305), so the comparison is always between equal
values and missed-event recovery is **never** triggered — for any
configuration, prior state and server response.  Moreover, even when
`recoverMissedEvents` runs with equal tokens, its own guard skips the
history fetch. -/
theorem gap_recovery_never_triggered :
    (∀ (cfg : TLongPollCollectorConfig) (st : TConnectionState)
       (resp : TServerResponse),
       (connectToServer cfg st resp).recoveryTriggered = false) ∧
    (∀ (enable : Bool) (pts : Option Int),
       recoverMissedEventsFetches enable pts pts = false) := by
  constructor
  · intro cfg st resp
    unfold connectToServer
    split
    · rfl
    · simp
  · intro enable pts
    unfold recoverMissedEventsFetches
    split
    · rfl
    · cases pts with
      | none => rfl
      | some l => simp

/-! ## C3 — reconnection budget -/

/-- **C3** (code bug): with `maxReconnectAttempts = 3`, a poll failure
followed by *any* number of consecutive reconnect failures leaves the
collector running with `reconnectAttempts` stuck at 1 and a further
reconnection scheduled: `reconnect()`'s failure path never increments the
counter (only `handleConnectionError` does), so after the 3rd consecutive
reconnect failure a 4th attempt is scheduled and the collector never stops. -/
theorem reconnect_failures_never_exhaust_budget (n : Nat) :
    iterReconnectFailures 3 n (handlePollFailure 3 startedCollector) =
      { isRunning := true, connected := false, reconnectAttempts := 1,
        reconnectScheduled := true } := by
  induction n with
  | zero => rfl
  | succ n ih =>
    have step :
        iterReconnectFailures 3 (n + 1) (handlePollFailure 3 startedCollector) =
          iterReconnectFailures 3 n
            (scheduledReconnectFailure 3 (handlePollFailure 3 startedCollector)) := rfl
    rw [step]
    have : scheduledReconnectFailure 3 (handlePollFailure 3 startedCollector) =
        handlePollFailure 3 startedCollector := rfl
    rw [this]
    exact ih

/-! ## C8 — validation errors -/

/-- **C8.** Every error classified as a validation error takes the plain
rethrow path of `handleError`: the operation is not retried
(`shouldRetry` is false already at attempt 0) and not placed in the retry
buffer (`shouldBuffer` excludes validation). -/
theorem validation_never_retried_nor_buffered (cfg : TErrorHandlerConfig)
    (rules : List (String × ErrorType)) (e : JsError)
    (h : classifyError rules e = .validation) :
    handleErrorAction cfg rules e = .rethrow := by
  unfold handleErrorAction
  rw [h]
  simp [shouldRetry, shouldBuffer]

/-- **C8**, witness: the concrete error `"Validation failed"` (no error code)
classifies as a validation error and is rethrown without retry or
buffering. -/
theorem validation_never_retried_witness :
    classifyError defaultClassificationRules ⟨none, "Validation failed"⟩ =
        .validation ∧
    handleErrorAction ⟨5, 1000, true⟩ defaultClassificationRules
        ⟨none, "Validation failed"⟩ = .rethrow :=
  ⟨by decide,
   validation_never_retried_nor_buffered ⟨5, 1000, true⟩ defaultClassificationRules
     ⟨none, "Validation failed"⟩ (by decide)⟩

/-! ## C5 / C6 — message append, id-deduplication and ordering -/

/-- `insertMessage` in the fresh-id case: append and stable-sort. -/
theorem insertMessage_of_findIdx_none {msgs : List TMessage} {m : TMessage}
    (hfind : msgs.findIdx? (fun msg => msg.id == m.id) = none) :
    insertMessage msgs m =
      (msgs ++ [m]).insertionSort (fun a b => a.date ≤ b.date) := by
  unfold insertMessage
  rw [hfind]

/-- `insertMessage` in the existing-id case: replace in place. -/
theorem insertMessage_of_findIdx_some {msgs : List TMessage} {m : TMessage} {i : Nat}
    (hfind : msgs.findIdx? (fun msg => msg.id == m.id) = some i) :
    insertMessage msgs m = msgs.set i m := by
  unfold insertMessage
  rw [hfind]

/-- `insertMessage` keeps message ids unique. -/
theorem uniqueIds_insertMessage (msgs : List TMessage) (m : TMessage)
    (hu : uniqueIds msgs) : uniqueIds (insertMessage msgs m) := by
  cases hfind : msgs.findIdx? (fun msg => msg.id == m.id) with
  | none =>
    rw [insertMessage_of_findIdx_none hfind]
    have hfresh : ∀ x ∈ msgs, x.id ≠ m.id := by
      intro x hx
      simpa using List.findIdx?_eq_none_iff.mp hfind x hx
    have hperm : List.Perm ((msgs ++ [m]).insertionSort (fun a b => a.date ≤ b.date))
        (msgs ++ [m]) := List.perm_insertionSort _ _
    have hsymm : ∀ {x y : TMessage}, x.id ≠ y.id → y.id ≠ x.id :=
      fun h => Ne.symm h
    show ((msgs ++ [m]).insertionSort (fun a b => a.date ≤ b.date)).Pairwise
      (fun a b => a.id ≠ b.id)
    refine (hperm.pairwise_iff hsymm).mpr ?_
    rw [List.pairwise_append]
    refine ⟨hu, List.pairwise_singleton _ _, ?_⟩
    intro a ha b hb
    rw [List.mem_singleton.mp hb]
    exact hfresh a ha
  | some i =>
    rw [insertMessage_of_findIdx_some hfind]
    obtain ⟨hi, hpi, _⟩ := List.findIdx?_eq_some_iff_getElem.mp hfind
    have hid : msgs[i].id = m.id := by simpa using hpi
    show (msgs.set i m).Pairwise (fun a b => a.id ≠ b.id)
    unfold uniqueIds at hu
    rw [List.pairwise_iff_getElem] at hu ⊢
    intro a b ha hb hab
    rw [List.length_set] at ha hb
    rw [List.getElem_set, List.getElem_set]
    split_ifs with hia hib hib
    · omega
    · subst hia
      rw [← hid]
      exact hu _ _ ha hb hab
    · subst hib
      rw [← hid]
      exact hu _ _ ha hb hab
    · exact hu _ _ ha hb hab

/-- Replacing the unique position carrying the id of `m` and filtering by
that id leaves exactly the replacement. -/
theorem filter_set_eq_singleton (m : TMessage) :
    ∀ (msgs : List TMessage) (i : Nat), i < msgs.length →
      (∀ j (hj : j < msgs.length), (msgs[j].id == m.id) = true ↔ j = i) →
      (msgs.set i m).filter (fun x => x.id == m.id) = [m]
  | [], i, hi, _ => by simp at hi
  | a :: t, 0, _, honly => by
    have hta : ∀ x ∈ t, ¬((fun x => x.id == m.id) x = true) := by
      intro x hx hxid
      obtain ⟨j, hj, rfl⟩ := List.mem_iff_getElem.mp hx
      have := (honly (j + 1) (by simpa using Nat.succ_lt_succ hj)).mp
        (by simpa using hxid)
      omega
    rw [List.set_cons_zero]
    rw [List.filter_cons]
    simp [List.filter_eq_nil_iff.mpr hta]
  | a :: t, i + 1, hi, honly => by
    have h0 : ¬((a.id == m.id) = true) := by
      intro htrue
      have := (honly 0 (by simp)).mp (by simpa using htrue)
      omega
    have hstep : ∀ j (hj : j < t.length), (t[j].id == m.id) = true ↔ j = i := by
      intro j hj
      have := honly (j + 1) (by simpa using Nat.succ_lt_succ hj)
      simpa using this
    rw [List.set_cons_succ]
    rw [List.filter_cons]
    rw [if_neg h0]
    exact filter_set_eq_singleton m t i (by simpa using Nat.lt_of_succ_lt_succ hi) hstep
/-- On a chat with unique message ids, `insertMessage` leaves exactly one
message carrying the inserted id — the inserted payload itself. -/
theorem insertMessage_filter_eq (msgs : List TMessage) (m : TMessage)
    (hu : uniqueIds msgs) :
    (insertMessage msgs m).filter (fun x => x.id == m.id) = [m] := by
  cases hfind : msgs.findIdx? (fun msg => msg.id == m.id) with
  | none =>
    rw [insertMessage_of_findIdx_none hfind]
    have hperm : List.Perm ((msgs ++ [m]).insertionSort (fun a b => a.date ≤ b.date))
        (msgs ++ [m]) := List.perm_insertionSort _ _
    have hfilter := hperm.filter (fun x => x.id == m.id)
    have hnil : msgs.filter (fun x => x.id == m.id) = [] := by
      rw [List.filter_eq_nil_iff]
      intro x hx
      simpa using List.findIdx?_eq_none_iff.mp hfind x hx
    have happ : (msgs ++ [m]).filter (fun x => x.id == m.id) = [m] := by
      rw [List.filter_append, hnil]
      simp
    rw [happ] at hfilter
    exact List.perm_singleton.mp hfilter
  | some i =>
    rw [insertMessage_of_findIdx_some hfind]
    obtain ⟨hi, hpi, hmin⟩ := List.findIdx?_eq_some_iff_getElem.mp hfind
    have hid : msgs[i].id = m.id := by simpa using hpi
    unfold uniqueIds at hu
    rw [List.pairwise_iff_getElem] at hu
    refine filter_set_eq_singleton m msgs i hi ?_
    intro j hj
    constructor
    · intro hjid
      by_contra hne
      rcases Nat.lt_or_ge j i with hji | hgt
      · exact hmin j hji hjid
      · have hij : i < j := by omega
        have := hu i j hi hj hij
        rw [hid] at this
        exact this (by simpa using (by simpa using hjid : msgs[j].id = m.id).symm)
    · intro hj'
      subst hj'
      simpa using hid

/-- **C5.** For every chat state with unique message ids and every pair of
messages with the same message id, appending the first and then the second
through `saveMessage`'s message-list update yields a chat containing exactly
one message with that id, whose content is the second call's payload (the
existing record is replaced in place). -/
theorem saveMessage_idempotent (msgs : List TMessage) (m1 m2 : TMessage)
    (hid : m1.id = m2.id) (hu : uniqueIds msgs) :
    (insertMessage (insertMessage msgs m1) m2).filter (fun x => x.id == m2.id) =
      [m2] :=
  insertMessage_filter_eq (insertMessage msgs m1) m2
    (uniqueIds_insertMessage msgs m1 hu)

/-- **C5**, witness: delivering message id 1 twice (second delivery with
different content) to an empty chat leaves exactly the second payload. -/
theorem saveMessage_idempotent_witness :
    (insertMessage (insertMessage [] ⟨1, 100, 1000, "first"⟩)
        ⟨1, 100, 2000, "second"⟩).filter
      (fun x => x.id == (⟨1, 100, 2000, "second"⟩ : TMessage).id) =
      [⟨1, 100, 2000, "second"⟩] :=
  saveMessage_idempotent [] ⟨1, 100, 1000, "first"⟩ ⟨1, 100, 2000, "second"⟩ rfl
    List.Pairwise.nil

/-- One `insertMessage` step preserves sortedness, id-uniqueness and
membership in the ambient message pool `S`, provided messages of `S` sharing
an id share a date (so an in-place replacement cannot break the order). -/
theorem insertMessage_invariant (S : List TMessage)
    (hcons : ∀ x ∈ S, ∀ y ∈ S, x.id = y.id → x.date = y.date)
    (l : List TMessage) (m : TMessage) (hm : m ∈ S) (hl : ∀ x ∈ l, x ∈ S)
    (hs : sortedByDate l) (hu : uniqueIds l) :
    sortedByDate (insertMessage l m) ∧ uniqueIds (insertMessage l m) ∧
      ∀ x ∈ insertMessage l m, x ∈ S := by
  refine ⟨?_, uniqueIds_insertMessage l m hu, ?_⟩
  · cases hfind : l.findIdx? (fun msg => msg.id == m.id) with
    | none =>
      rw [insertMessage_of_findIdx_none hfind]
      exact List.sorted_insertionSort _ _
    | some i =>
      rw [insertMessage_of_findIdx_some hfind]
      obtain ⟨hi, hpi, _⟩ := List.findIdx?_eq_some_iff_getElem.mp hfind
      have hid : l[i].id = m.id := by simpa using hpi
      have hdate : l[i].date = m.date :=
        hcons _ (hl _ (l.getElem_mem hi)) _ hm hid
      show (l.set i m).Pairwise (fun a b => a.date ≤ b.date)
      unfold sortedByDate at hs
      rw [List.pairwise_iff_getElem] at hs ⊢
      intro a b ha hb hab
      rw [List.length_set] at ha hb
      rw [List.getElem_set, List.getElem_set]
      split_ifs with hia hib hib
      · omega
      · subst hia
        rw [← hdate]
        exact hs _ _ ha hb hab
      · subst hib
        rw [← hdate]
        exact hs _ _ ha hb hab
      · exact hs _ _ ha hb hab
  · cases hfind : l.findIdx? (fun msg => msg.id == m.id) with
    | none =>
      rw [insertMessage_of_findIdx_none hfind]
      intro x hx
      have hmem : x ∈ l ++ [m] := (List.perm_insertionSort _ _).mem_iff.mp hx
      rcases List.mem_append.mp hmem with h | h
      · exact hl x h
      · rw [List.mem_singleton.mp h]
        exact hm
    | some i =>
      rw [insertMessage_of_findIdx_some hfind]
      intro x hx
      rcases List.mem_or_eq_of_mem_set hx with h | h
      · exact hl x h
      · rw [h]
        exact hm

/-- Folding `insertMessage` over any batch of messages from a pool with
consistent dates keeps the chat sorted and id-unique. -/
theorem foldl_insertMessage_invariant (S : List TMessage)
    (hcons : ∀ x ∈ S, ∀ y ∈ S, x.id = y.id → x.date = y.date) :
    ∀ (todo l : List TMessage), (∀ x ∈ todo, x ∈ S) → (∀ x ∈ l, x ∈ S) →
      sortedByDate l → uniqueIds l →
      sortedByDate (todo.foldl insertMessage l) ∧
        uniqueIds (todo.foldl insertMessage l)
  | [], l, _, _, hs, hu => ⟨hs, hu⟩
  | m :: rest, l, htodo, hl, hs, hu => by
    have hstep := insertMessage_invariant S hcons l m (htodo m (by simp)) hl hs hu
    have hrest := foldl_insertMessage_invariant S hcons rest (insertMessage l m)
      (fun x hx => htodo x (by simp [hx])) hstep.2.2 hstep.1 hstep.2.1
    simpa using hrest

/-- **C6**, counterexample: delivering message id 1 (t=1000), then id 2
(t=2000), then **re-delivering id 1 with the later timestamp 3000** produces
the list `[{id 1, t 3000}, {id 2, t 2000}]`: the in-place replacement branch
of `saveMessage` does not re-sort, so the list is no longer sorted ascending
by timestamp. -/
theorem saveMessage_sorted_counterexample :
    ¬ sortedByDate
        (([⟨1, 1, 1000, "a"⟩, ⟨2, 2, 2000, "b"⟩, ⟨1, 1, 3000, "again"⟩] :
            List TMessage).foldl insertMessage []) := by
  show ¬ List.Pairwise (fun a b : TMessage => a.date ≤ b.date)
      (([⟨1, 1, 1000, "a"⟩, ⟨2, 2, 2000, "b"⟩, ⟨1, 1, 3000, "again"⟩] :
          List TMessage).foldl insertMessage [])
  decide

/-- **C6** (amended): after any sequence of `saveMessage` calls on an
initially empty chat in which any two delivered payloads sharing a message id
carry the same timestamp, the chat's message list is sorted ascending by
timestamp and contains no two messages with the same id.  (When a
re-delivered id carries a *different* timestamp, the in-place replacement
does not re-sort and sortedness can break — see the counterexample.) -/
theorem saveMessage_sorted_unique_of_consistent_dates (seq : List TMessage)
    (hcons : ∀ x ∈ seq, ∀ y ∈ seq, x.id = y.id → x.date = y.date) :
    sortedByDate (seq.foldl insertMessage []) ∧
      uniqueIds (seq.foldl insertMessage []) :=
  foldl_insertMessage_invariant seq hcons seq [] (fun _ h => h) (by simp)
    List.Pairwise.nil List.Pairwise.nil

/-- **C6**, witness: two distinct-id deliveries arriving out of timestamp
order end up sorted and unique. -/
theorem saveMessage_sorted_unique_witness :
    sortedByDate (([⟨1, 1, 2000, "b"⟩, ⟨2, 2, 1000, "a"⟩] :
        List TMessage).foldl insertMessage []) ∧
      uniqueIds (([⟨1, 1, 2000, "b"⟩, ⟨2, 2, 1000, "a"⟩] :
        List TMessage).foldl insertMessage []) :=
  saveMessage_sorted_unique_of_consistent_dates
    [⟨1, 1, 2000, "b"⟩, ⟨2, 2, 1000, "a"⟩] (by decide)

/-! ## C7 — retry-buffer bound and eviction policy -/

/-- The overflow handler only removes entries. -/
theorem handleBufferOverflow_length_le (cfg : TErrorHandlerConfig)
    (entries : List BufEntry) :
    (handleBufferOverflow cfg entries).length ≤ entries.length :=
  List.length_filter_le _ _

/-- One `bufferOperation` call preserves the capacity bound: at capacity it
only evicts (and drops the new operation), below capacity it appends one. -/
theorem bufferOperation_length_le (cfg : TErrorHandlerConfig) (st : BufState)
    (context : String) (timestamp : Nat) (priority : BufPriority)
    (h : st.entries.length ≤ cfg.bufferSize) :
    (bufferOperation cfg st context timestamp priority).entries.length ≤
      cfg.bufferSize := by
  unfold bufferOperation
  split
  · exact h
  · split
    · exact le_trans (handleBufferOverflow_length_le cfg st.entries) h
    · rename_i hlt
      rw [List.length_append]
      simp only [List.length_singleton]
      omega

/-- Any sequence of enqueues starting from the empty buffer stays within the
configured capacity. -/
theorem runBufferOps_length_le (cfg : TErrorHandlerConfig) (ops : List BufRequest) :
    (runBufferOps cfg ⟨[], 0⟩ ops).entries.length ≤ cfg.bufferSize := by
  have hstep : ∀ (ops : List BufRequest) (st : BufState),
      st.entries.length ≤ cfg.bufferSize →
      (runBufferOps cfg st ops).entries.length ≤ cfg.bufferSize := by
    intro ops
    induction ops with
    | nil => intro st h; exact h
    | cons op rest ih =>
      intro st h
      exact ih _ (bufferOperation_length_le cfg st op.context op.timestamp
        op.priority h)
  exact hstep ops ⟨[], 0⟩ (by simp)

/-- On a buffer with distinct operation ids, the overflow handler removes
only low-priority entries, and only the oldest ones: every evicted entry is
low-priority and no older than any surviving low-priority entry. -/
theorem handleBufferOverflow_evicts_oldest_low (cfg : TErrorHandlerConfig)
    (entries : List BufEntry) (hnodup : (entries.map (·.id)).Nodup) :
    ∀ e ∈ entries, e ∉ handleBufferOverflow cfg entries →
      e.priority = .low ∧
      ∀ r ∈ handleBufferOverflow cfg entries, r.priority = .low →
        e.timestamp ≤ r.timestamp := by
  intro e he hout
  have hlowperm : List.Perm (lowPriorityByAge entries)
      (entries.filter (fun op => op.priority == .low)) :=
    List.perm_insertionSort _ _
  have hlowsorted : (lowPriorityByAge entries).Pairwise
      (fun a b => a.timestamp ≤ b.timestamp) :=
    List.sorted_insertionSort _ _
  -- the eviction predicate of the result filter
  have hpred : ∀ x : BufEntry,
      (x ∈ handleBufferOverflow cfg entries ↔
        x ∈ entries ∧
          (!((((lowPriorityByAge entries).take (overflowRemoveCount cfg)).map
              (·.id)).contains x.id)) = true) := by
    intro x
    unfold handleBufferOverflow
    exact List.mem_filter
  -- the evicted entry's id is among the removed ids
  have hmem : e.id ∈ ((lowPriorityByAge entries).take (overflowRemoveCount cfg)).map
      (·.id) := by
    by_contra hcon
    exact hout ((hpred e).mpr ⟨he, by simpa using hcon⟩)
  obtain ⟨e', he'take, he'id⟩ := List.mem_map.mp hmem
  have he'low : e' ∈ entries.filter (fun op => op.priority == .low) :=
    hlowperm.mem_iff.mp (List.mem_of_mem_take he'take)
  have he'entries : e' ∈ entries := (List.mem_filter.mp he'low).1
  have hee' : e' = e :=
    List.inj_on_of_nodup_map hnodup he'entries he he'id
  subst hee'
  constructor
  · simpa using (List.mem_filter.mp he'low).2
  · intro r hr hrlow
    have hrmem := (hpred r).mp hr
    have hrents : r ∈ entries := hrmem.1
    have hrnotrem : r.id ∉
        ((lowPriorityByAge entries).take (overflowRemoveCount cfg)).map (·.id) := by
      have h2 := hrmem.2
      simp only [Bool.not_eq_true', List.contains, List.elem_eq_mem,
        decide_eq_false_iff_not] at h2
      exact h2
    have hrlows : r ∈ lowPriorityByAge entries := by
      apply hlowperm.mem_iff.mpr
      exact List.mem_filter.mpr ⟨hrents, by simpa using hrlow⟩
    have hrdrop : r ∈ (lowPriorityByAge entries).drop (overflowRemoveCount cfg) := by
      have hsplit : r ∈ (lowPriorityByAge entries).take (overflowRemoveCount cfg) ++
          (lowPriorityByAge entries).drop (overflowRemoveCount cfg) := by
        rw [List.take_append_drop]
        exact hrlows
      rcases List.mem_append.mp hsplit with h | h
      · exact absurd (List.mem_map_of_mem _ h) hrnotrem
      · exact h
    have hsorted2 : ((lowPriorityByAge entries).take (overflowRemoveCount cfg) ++
        (lowPriorityByAge entries).drop (overflowRemoveCount cfg)).Pairwise
          (fun a b => a.timestamp ≤ b.timestamp) := by
      rw [List.take_append_drop]
      exact hlowsorted
    exact (List.pairwise_append.mp hsorted2).2.2 _ he'take _ hrdrop

/-- **C7.** After any sequence of `bufferOperation` enqueues starting from an
empty buffer the number of buffered operations never exceeds the configured
`bufferSize`; and when an enqueue overflows, the overflow handler evicts only
the oldest low-priority entries: every removed entry is low-priority and no
younger than any low-priority entry that stays. -/
theorem buffer_bounded_and_evicts_oldest_low (cfg : TErrorHandlerConfig) :
    (∀ ops : List BufRequest,
      (runBufferOps cfg ⟨[], 0⟩ ops).entries.length ≤ cfg.bufferSize) ∧
    (∀ entries : List BufEntry, (entries.map (·.id)).Nodup →
      ∀ e ∈ entries, e ∉ handleBufferOverflow cfg entries →
        e.priority = .low ∧
        ∀ r ∈ handleBufferOverflow cfg entries, r.priority = .low →
          e.timestamp ≤ r.timestamp) :=
  ⟨runBufferOps_length_le cfg, handleBufferOverflow_evicts_oldest_low cfg⟩

/-- **C7**, witness: with capacity 2, three enqueues stay within the bound;
and on the concrete overloaded buffer `[{id 0, t 5, low}, {id 1, t 3, low}]`
the evicted entry `{id 1, t 3, low}` is low-priority and older than every
surviving low-priority entry. -/
theorem buffer_bounded_witness :
    (runBufferOps ⟨5, 2, true⟩ ⟨[], 0⟩
        [⟨"x", 1, .normal⟩, ⟨"y", 2, .low⟩, ⟨"z", 3, .high⟩]).entries.length ≤
      (⟨5, 2, true⟩ : TErrorHandlerConfig).bufferSize ∧
    ((⟨1, "b", 3, 0, .low⟩ : BufEntry).priority = .low ∧
      ∀ r ∈ handleBufferOverflow ⟨5, 2, true⟩
          [⟨0, "a", 5, 0, .low⟩, ⟨1, "b", 3, 0, .low⟩],
        r.priority = .low →
        (⟨1, "b", 3, 0, .low⟩ : BufEntry).timestamp ≤ r.timestamp) :=
  ⟨(buffer_bounded_and_evicts_oldest_low ⟨5, 2, true⟩).1
      [⟨"x", 1, .normal⟩, ⟨"y", 2, .low⟩, ⟨"z", 3, .high⟩],
   (buffer_bounded_and_evicts_oldest_low ⟨5, 2, true⟩).2
      [⟨0, "a", 5, 0, .low⟩, ⟨1, "b", 3, 0, .low⟩] (by decide)
      ⟨1, "b", 3, 0, .low⟩ (by decide) (by decide)⟩

/-! ## Association-list lemmas shared by the cache theorems -/

/-- A key whose lookup misses matches no entry. -/
theorem mapGet_eq_none_iff {χ : Type} {cache : List (Int × χ)} {k : Int} :
    mapGet cache k = none ↔ ∀ e ∈ cache, (e.fst == k) = false := by
  unfold mapGet
  rw [Option.map_eq_none']
  rw [List.find?_eq_none]
  simp

/-- `Map.set` on a missing key appends the new entry. -/
theorem mapSet_of_mapGet_none {χ : Type} {cache : List (Int × χ)} {k : Int} (v : χ)
    (h : mapGet cache k = none) : mapSet cache k v = cache ++ [(k, v)] := by
  unfold mapSet
  have : cache.findIdx? (fun e => e.fst == k) = none := by
    rw [List.findIdx?_eq_none_iff]
    exact mapGet_eq_none_iff.mp h
  rw [this]

/-- Looking up a key just appended to a map that missed it. -/
theorem mapGet_append_self {χ : Type} {cache : List (Int × χ)} {k : Int} (v : χ)
    (h : mapGet cache k = none) : mapGet (cache ++ [(k, v)]) k = some v := by
  induction cache with
  | nil => simp [mapGet, List.find?]
  | cons e t ih =>
    have he : (e.fst == k) = false := mapGet_eq_none_iff.mp h e (by simp)
    have ht : mapGet t k = none :=
      mapGet_eq_none_iff.mpr fun x hx => mapGet_eq_none_iff.mp h x (by simp [hx])
    simpa [mapGet, List.find?_cons, he] using ih ht

/-! ## C10 — single-user resolution -/

/-- **C10**, counterexample: on a *successful* remote lookup the returned
user's id is copied from the remote profile without being checked against the
requested id, so "the returned user's id always equals the requested id"
fails: requesting user 123 while the remote response carries profile id 999
returns a user with id 999. -/
theorem getUserInfo_returns_remote_id :
    (getUserInfo defaultUserCfg [] 0 123
        (.ok [{ id := some 999, firstName := some "Some", lastName := some "One",
                lastSeen := none }])).fst.id ≠ 123 := by decide

/-- **C10** (amended): `getUserInfo` never rejects — every failure of the
remote lookup is caught inside `fetchSingleUser` — and whenever the remote
fetch errors or returns no user (on a cache miss), it resolves to the
placeholder user with the requested id and name `"User {id}"`, and caches
that placeholder under the requested id; in these failure cases the returned
user's id equals the requested id.  (On a successful lookup the id is taken
from the remote profile instead.) -/
theorem getUserInfo_failed_lookup_placeholder (cfg : TUserManagerConfig)
    (cache : List (Int × TCachedUser)) (now : Nat) (userId : Int) (r : FetchResult)
    (hmiss : mapGet cache userId = none) (hfail : r = .errored ∨ r = .ok []) :
    (getUserInfo cfg cache now userId r).fst = placeholderUser userId ∧
    mapGet (getUserInfo cfg cache now userId r).snd userId =
      some { id := userId, name := "User " ++ toString userId, lastActivity := none,
             cachedAt := now, ttl := cfg.cacheTimeToLive } := by
  have hfetch : fetchSingleUser userId r = placeholderUser userId := by
    rcases hfail with rfl | rfl <;> rfl
  have hval : validateUser (placeholderUser userId) = true := by
    have h5 : ("User " ++ toString userId).length = 5 + (toString userId).length := by
      rw [String.length_append]
      rfl
    simp only [validateUser, placeholderUser, decide_eq_true_eq, h5]
    omega
  have hcache : cacheUser cfg cache now (placeholderUser userId) =
      cache ++ [(userId,
        { id := userId, name := "User " ++ toString userId, lastActivity := none,
          cachedAt := now, ttl := cfg.cacheTimeToLive })] := by
    unfold cacheUser
    rw [hval]
    simp only [Bool.not_true, Bool.false_eq_true, if_false]
    exact mapSet_of_mapGet_none _ hmiss
  have hrun : getUserInfo cfg cache now userId r =
      (placeholderUser userId,
       cache ++ [(userId,
         { id := userId, name := "User " ++ toString userId, lastActivity := none,
           cachedAt := now, ttl := cfg.cacheTimeToLive })]) := by
    unfold getUserInfo
    rw [hmiss]
    show (fetchSingleUser userId r,
          cacheUser cfg cache now (fetchSingleUser userId r)) = _
    rw [hfetch, hcache]
  rw [hrun]
  exact ⟨rfl, mapGet_append_self _ hmiss⟩

/-- **C10**, witness: resolving user 7 from an empty cache with an errored
remote lookup returns and caches the placeholder `User 7`. -/
theorem getUserInfo_failed_lookup_witness :
    (getUserInfo defaultUserCfg [] 0 7 .errored).fst = placeholderUser 7 ∧
    mapGet (getUserInfo defaultUserCfg [] 0 7 .errored).snd 7 =
      some { id := 7, name := "User " ++ toString (7 : Int), lastActivity := none,
             cachedAt := 0, ttl := defaultUserCfg.cacheTimeToLive } :=
  getUserInfo_failed_lookup_placeholder defaultUserCfg [] 0 7 .errored rfl (Or.inl rfl)

/-! ## C9 — chat cache bound -/

/-- **C9**, counterexample: with `maxMemoryCacheSize = 1`, saving first
messages of two previously unseen chats leaves **two** entries in the cache:
the `chatCache.set` in `saveMessage` performs no capacity check, so the
claimed bound fails for insertions made by `saveMessage`. -/
theorem saveMessage_cache_exceeds_limit :
    ¬ ((saveMessageCacheStep 1 (fun _ => none) ([] : List TMessage)
          (fun msgs => insertMessage msgs ⟨2, 20, 2000, "yo"⟩) (fun c => c)
          (saveMessageCacheStep 1 (fun _ => none) ([] : List TMessage)
            (fun msgs => insertMessage msgs ⟨1, 10, 1000, "hi"⟩) (fun c => c)
            [] 1)
          2).length ≤ 1) := by decide

/-- One `getChatData` call never grows the cache beyond the limit: a load
inserts at most one entry and evicts the oldest one when the limit is
exceeded. -/
theorem getChatDataStep_length_le {χ : Type} (maxSize : Nat) (files : Int → Option χ)
    (cache : List (Int × χ)) (chatId : Int) (h : cache.length ≤ maxSize) :
    ((getChatDataStep maxSize files cache chatId).fst).length ≤ maxSize := by
  unfold getChatDataStep
  cases hg : mapGet cache chatId with
  | some c => simpa using h
  | none =>
    cases hf : files chatId with
    | none => simpa using h
    | some c =>
      have hlen : (mapSet cache chatId c).length ≤ cache.length + 1 := by
        unfold mapSet
        cases hfi : cache.findIdx? (fun e => e.fst == chatId) with
        | some i => simp
        | none => simp
      by_cases how : (mapSet cache chatId c).length > maxSize
      · simp only [how, if_true, evictOldestCacheEntry, List.length_tail]
        omega
      · simpa [how] using Nat.le_of_not_lt how

/-- **C9** (amended): the FIFO bound holds for the insertions performed by
`getChatData` loads — starting from any cache within the limit, any sequence
of `getChatData` calls keeps the cache within `maxMemoryCacheSize`, evicting
the first-inserted entry on overflow.  (The insertion performed by
`saveMessage`'s `chatCache.set` bypasses the capacity check — see the
counterexample — so the bound does not hold for arbitrary operation
sequences.) -/
theorem getChatData_cache_bounded {χ : Type} (maxSize : Nat) (files : Int → Option χ)
    (ids : List Int) (cache : List (Int × χ)) (h : cache.length ≤ maxSize) :
    (ids.foldl (fun c i => (getChatDataStep maxSize files c i).fst) cache).length
      ≤ maxSize := by
  induction ids generalizing cache with
  | nil => simpa using h
  | cons i rest ih =>
    exact ih _ (getChatDataStep_length_le maxSize files cache i h)

/-- **C9**, witness: three loads into a one-slot cache stay within the
bound. -/
theorem getChatData_cache_bounded_witness :
    (([5, 6, 7] : List Int).foldl
        (fun c i => (getChatDataStep 1 (fun _ => some ([] : List TMessage)) c i).fst)
        []).length ≤ 1 :=
  getChatData_cache_bounded 1 (fun _ => some ([] : List TMessage)) [5, 6, 7] []
    (by decide)

end ChatAnalyst
